import Mathlib

/-!
Shallow embedding of the Geometry ITS backend (src/main.py) and proofs about it.

Modelling conventions:
* An owlready2 data property read (`get_data_prop`) yields `Option` values: `none`
  covers a property absent from the ontology, an empty value list, or a read error
  that the source logs and converts to `None`.
* `hasattr(onto, "GeometricConcept")` / `hasattr(onto, "Problem")` are modelled by the
  catalog lists being `Option`s on the `Ontology` record; an absent `hasPrerequisite`
  (or `teachesConcept`, `hasHint`) property behaves exactly like every entity having
  an empty list for it, so those are folded into per-entity lists.
* A prerequisite / teaches / hint target is an ontology entity of which the source
  only ever reads `get_concept_code`, `iri`, `label` and `name`, so it is modelled by
  its data (`EntityData`).
* Raising `HTTPException` is modelled by the operation returning `none`.
* `hasDifficultyLevel` is integer-valued in the catalog, so the `int()` normalisation
  in `concept_to_model` is the identity and the raw value is modelled as `Option Int`.
* Python's stable `list.sort` with a key is modelled by `List.insertionSort` with the
  non-strict key order, which is stable with the same tie behaviour.
-/

namespace ITS

/-- The data properties of an ontology entity, as the source reads them through
`get_data_prop` (first value of the property, or `none`). `labels` is the rdfs
label list, `name` the entity name used as fallback label. -/
structure EntityData where
  iri : String
  name : String
  labels : List String
  hasConceptCode : Option String
  hasDescription : Option String
  hasDifficultyLevel : Option Int
deriving Repr, DecidableEq

/-- A `GeometricConcept` instance: its data properties plus the entities reachable
through the `hasPrerequisite` object property. -/
structure ConceptInst extends EntityData where
  hasPrerequisite : List EntityData
deriving Repr, DecidableEq

/-- A `Problem` instance: its data properties plus the entities reachable through
`teachesConcept` and `hasHint`. -/
structure ProblemInst where
  iri : String
  name : String
  labels : List String
  hasProblemText : Option String
  hasCorrectAnswer : Option String
  teachesConcept : List EntityData
  hasHint : List EntityData
deriving Repr, DecidableEq

/-- The loaded ontology. `geometricConcept = none` models
`not hasattr(onto, "GeometricConcept")` (likewise `problem` for the `Problem` kind);
`some l` is the instance list in its stable iteration order. -/
structure Ontology where
  geometricConcept : Option (List ConceptInst)
  problem : Option (List ProblemInst)
deriving Repr, DecidableEq

/-- `get_label`: first rdfs label when the label list is non-empty (truthy),
otherwise the entity name. -/
def get_label (labels : List String) (name : String) : String :=
  match labels with
  | [] => name
  | l :: _ => l

/-- `get_concept_code`: the `hasConceptCode` data value as a string, or `None`.
`str` on an already-string value is the identity. -/
def get_concept_code (e : EntityData) : Option String :=
  e.hasConceptCode

/-- The repeated source pattern `code = get_concept_code(x); if code: out.append(code)`:
collect the codes of a list of entities, dropping missing and empty (falsy) ones. -/
def truthyCodes (es : List EntityData) : List String :=
  es.filterMap fun p =>
    match get_concept_code p with
    | some pc => if pc = "" then none else some pc
    | none => none

/-- The prerequisite code list built identically in `concept_to_model` and in
`suggest_next_concepts`. -/
def prereq_codes (c : ConceptInst) : List String :=
  truthyCodes c.hasPrerequisite

/-- The pydantic `Concept` response model. -/
structure Concept where
  iri : String
  code : Option String
  label : String
  description : Option String
  difficulty : Option Int
  prerequisites : List String
  image_key : Option String
deriving Repr, DecidableEq

/-- `concept_to_model`: project a catalog concept instance to its response model.
`image_key` is set to `code` (the auto-mapping for images). -/
def concept_to_model (c : ConceptInst) : Concept :=
  { iri := c.iri
    code := get_concept_code c.toEntityData
    label := get_label c.labels c.name
    description := c.hasDescription
    difficulty := c.hasDifficultyLevel
    prerequisites := prereq_codes c
    image_key := get_concept_code c.toEntityData }

/-- `find_concept_by_code`: first `GeometricConcept` instance whose code equals the
requested code (`None` when the kind is absent or nothing matches). -/
def find_concept_by_code (onto : Ontology) (code : String) : Option ConceptInst :=
  match onto.geometricConcept with
  | none => none
  | some cs => cs.find? fun c => get_concept_code c.toEntityData == some code

/-- `GET /concepts`. -/
def list_concepts (onto : Ontology) : List Concept :=
  match onto.geometricConcept with
  | none => []
  | some cs => cs.map concept_to_model

/-- `GET /concepts/{code}`; `none` models the 404 `HTTPException`. -/
def get_concept (onto : Ontology) (code : String) : Option Concept :=
  (find_concept_by_code onto code).map concept_to_model

/-- The loop body filter of `suggest_next_concepts`: a concept is kept when its code
is present and truthy, not already mastered, and its (truthy) direct prerequisite
codes are a subset of the mastered set. -/
def emitted (mastered : List String) (c : ConceptInst) : Bool :=
  match get_concept_code c.toEntityData with
  | none => false
  | some code =>
    !(code = "") && !(decide (code ∈ mastered)) &&
      (prereq_codes c).all fun p => decide (p ∈ mastered)

/-- Python truthiness applied to the sort key `x.difficulty or 999`: `None` and `0`
are falsy and are replaced by `999`. -/
def pyOrDifficulty (d : Option Int) : Int :=
  match d with
  | none => 999
  | some n => if n = 0 then 999 else n

/-- Python `str.lower` (ASCII case mapping suffices for the catalog labels),
written over the underlying character list. -/
def lowerStr (s : String) : String :=
  ⟨s.data.map Char.toLower⟩

/-- Python `str.strip()`: drop leading and trailing whitespace characters. -/
def pyStrip (s : String) : String :=
  ⟨((s.data.dropWhile Char.isWhitespace).reverse.dropWhile Char.isWhitespace).reverse⟩

/-- The sort key `(x.difficulty or 999, x.label.lower())` of `suggest_next_concepts`. -/
def sortKey (x : Concept) : Int × String :=
  (pyOrDifficulty x.difficulty, lowerStr x.label)

/-- Lexicographic non-strict order on sort keys: the comparison Python's tuple sort
performs. -/
def conceptLE (a b : Concept) : Prop :=
  (sortKey a).1 < (sortKey b).1 ∨
    ((sortKey a).1 = (sortKey b).1 ∧ (sortKey a).2 ≤ (sortKey b).2)

instance : DecidableRel conceptLE := fun a b => by
  unfold conceptLE
  exact inferInstance

instance : IsTotal Concept conceptLE where
  total a b := by
    rcases lt_trichotomy (sortKey a).1 (sortKey b).1 with h | h | h
    · exact Or.inl (Or.inl h)
    · rcases le_total (sortKey a).2 (sortKey b).2 with h2 | h2
      · exact Or.inl (Or.inr ⟨h, h2⟩)
      · exact Or.inr (Or.inr ⟨h.symm, h2⟩)
    · exact Or.inr (Or.inl h)

instance : IsTrans Concept conceptLE where
  trans a b c hab hbc := by
    rcases hab with h1 | ⟨e1, l1⟩ <;> rcases hbc with h2 | ⟨e2, l2⟩
    · exact Or.inl (h1.trans h2)
    · exact Or.inl (e2 ▸ h1)
    · exact Or.inl (e1 ▸ h2)
    · exact Or.inr ⟨e1.trans e2, l1.trans l2⟩

/-- `POST /next-concepts`: filter the catalog by `emitted`, project to models, and
sort by `(difficulty or 999, label.lower())`. Python's `list.sort` is stable, and a
stable sort by a key is exactly `List.insertionSort` with the non-strict key order. -/
def suggest_next_concepts (onto : Ontology) (mastered_concepts : List String) :
    List Concept :=
  match onto.geometricConcept with
  | none => []
  | some cs =>
    ((cs.filter (emitted mastered_concepts)).map concept_to_model).insertionSort
      conceptLE

/-- The pydantic `Problem` response model. -/
structure Problem where
  iri : String
  label : String
  text : String
  teaches_concepts : List String
  has_hint_concepts : List String
deriving Repr, DecidableEq

/-- Body of the `GET /problems` loop: one `Problem` model.
`text` is `get_data_prop(p, "hasProblemText") or ""`. -/
def problem_to_model (p : ProblemInst) : Problem :=
  { iri := p.iri
    label := get_label p.labels p.name
    text := p.hasProblemText.getD ""
    teaches_concepts := truthyCodes p.teachesConcept
    has_hint_concepts := truthyCodes p.hasHint }

/-- `GET /problems`. -/
def list_problems (onto : Ontology) : List Problem :=
  match onto.problem with
  | none => []
  | some ps => ps.map problem_to_model

/-- An entity of `default_world`, which holds every individual of the loaded
ontology: `GeometricConcept` instances and `Problem` instances alike. -/
inductive WorldEntity where
  | conceptEnt (c : ConceptInst)
  | problemEnt (p : ProblemInst)
deriving Repr, DecidableEq

/-- The IRI under which a world entity is retrievable. -/
def WorldEntity.entIri : WorldEntity → String
  | conceptEnt c => c.iri
  | problemEnt p => p.iri

/-- `get_data_prop(entity, "hasCorrectAnswer")` for a world entity: only problems
carry a `hasCorrectAnswer` value in the catalog. -/
def WorldEntity.hasCorrectAnswerOf : WorldEntity → Option String
  | conceptEnt _ => none
  | problemEnt p => p.hasCorrectAnswer

/-- The pydantic `AnswerResult` response model. -/
structure AnswerResult where
  correct : Bool
  correct_answer : Option String
  feedback : String
deriving Repr, DecidableEq

/-- The normalisation `s.strip().lower()` applied to both answers. -/
def pyNormalize (s : String) : String :=
  lowerStr (pyStrip s)

/-- `POST /check-answer`: resolve the IRI in the world (`none` models the 404
`HTTPException` raised when the lookup fails), then degrade gracefully when no
correct answer is stored, otherwise compare the normalised strings. -/
def check_answer (world : List WorldEntity) (problem_iri answer : String) :
    Option AnswerResult :=
  match world.find? (fun e => WorldEntity.entIri e == problem_iri) with
  | none => none
  | some problem =>
    match WorldEntity.hasCorrectAnswerOf problem with
    | none =>
      some { correct := false
             correct_answer := none
             feedback := "This problem does not have a stored correct answer." }
    | some correct_answer =>
      if pyNormalize answer = pyNormalize correct_answer then
        some { correct := true
               correct_answer := some correct_answer
               feedback := "Correct! Well done." }
      else
        some { correct := false
               correct_answer := some correct_answer
               feedback := "Not quite. Review the concept and try again." }

/-- The ordering claimed by the spec, written from the spec's words (not from the
source), for comparison with the source's sort: difficulty ascending with a
nil difficulty sorting last, ties broken by the lowercased label. -/
def claimedLE (a b : Concept) : Bool :=
  match a.difficulty, b.difficulty with
  | some m, some n =>
    decide (m < n) || (decide (m = n) && decide (lowerStr a.label ≤ lowerStr b.label))
  | some _, none => true
  | none, some _ => false
  | none, none => decide (lowerStr a.label ≤ lowerStr b.label)

/-- Modelled from the spec: the Knowledge Store is absent from src/ (the source keeps
no per-student state), so `replace` and its deduplication are taken from the spec's
words. `dedupFS seen l` keeps the members of `l` not in `seen`, first occurrence
only, in first-seen order. -/
def dedupFS (seen : List String) : List String → List String
  | [] => []
  | c :: rest =>
    if c ∈ seen then dedupFS seen rest else c :: dedupFS (c :: seen) rest

/-- Modelled from the spec: deduplicate a code list preserving first-seen order. -/
def dedupFirstSeen (codes : List String) : List String :=
  dedupFS [] codes

/-- Modelled from the spec: the Knowledge Store, a map from student identifier to the
stored known-code list; the most recent entry for a student is authoritative. -/
def KnowledgeStore : Type :=
  List (String × List String)

/-- Modelled from the spec: `get(studentId)`, reading the stored set. -/
def storeGet (store : KnowledgeStore) (studentId : String) : Option (List String) :=
  (store.find? fun e => e.1 == studentId).map (·.2)

/-- Modelled from the spec: `replace(studentId, codes)` deduplicates preserving
first-seen order, installs the new set entirely replacing the previous one, and
returns the stored set. -/
def replace (store : KnowledgeStore) (studentId : String) (codes : List String) :
    KnowledgeStore × List String :=
  let stored := dedupFirstSeen codes
  ((studentId, stored) :: store, stored)

/-- Concrete catalog for the spec's gap-recommendation example:
`A` with no prerequisite, `B` with prerequisite `A`, `C` with prerequisite `B`. -/
def entA : EntityData :=
  ⟨"urn:A", "A", ["Angles"], some "A", none, some 1⟩

def entB : EntityData :=
  ⟨"urn:B", "B", ["Bisectors"], some "B", none, some 2⟩

def entC : EntityData :=
  ⟨"urn:C", "C", ["Circles"], some "C", none, some 3⟩

def conceptA : ConceptInst :=
  ⟨entA, []⟩

def conceptB : ConceptInst :=
  ⟨entB, [entA]⟩

def conceptC : ConceptInst :=
  ⟨entC, [entB]⟩

def abcOnto : Ontology :=
  ⟨some [conceptA, conceptB, conceptC], none⟩

/-- Concrete catalog with a difficulty-0 concept, exercising the falsiness of `0` in
`x.difficulty or 999`. -/
def entX : EntityData :=
  ⟨"urn:X", "X", ["a"], some "X", none, some 0⟩

def entY : EntityData :=
  ⟨"urn:Y", "Y", ["b"], some "Y", none, some 1⟩

def zeroOnto : Ontology :=
  ⟨some [⟨entX, []⟩, ⟨entY, []⟩], none⟩

/-- Concrete two-cycle catalog: `P` requires `Q` and `Q` requires `P`. -/
def entP : EntityData :=
  ⟨"urn:P", "P", ["Parallels"], some "P", none, none⟩

def entQ : EntityData :=
  ⟨"urn:Q", "Q", ["Quadrilaterals"], some "Q", none, none⟩

def cycleOnto : Ontology :=
  ⟨some [⟨entP, [entQ]⟩, ⟨entQ, [entP]⟩], none⟩

/-- Concrete problem with stored answer "Right Angle". -/
def rightAngleProblem : ProblemInst :=
  ⟨"urn:prob1", "prob1", ["Classify the angle"], some "Which angle is this?",
    some "Right Angle", [], []⟩

def answerWorld : List WorldEntity :=
  [WorldEntity.problemEnt rightAngleProblem]

/-- Concrete problem with no stored correct answer. -/
def noAnswerProblem : ProblemInst :=
  ⟨"urn:prob2", "prob2", ["Open question"], some "Explain.", none, [], []⟩

theorem emitted_eq_true_iff (K : List String) (c : ConceptInst) :
    emitted K c = true ↔
      ∃ code, get_concept_code c.toEntityData = some code ∧ code ≠ "" ∧ code ∉ K ∧
        ∀ p ∈ prereq_codes c, p ∈ K := by
  unfold emitted
  cases h : get_concept_code c.toEntityData with
  | none => simp
  | some code =>
    simp only [Bool.and_eq_true, Bool.not_eq_true', decide_eq_false_iff_not,
      List.all_eq_true, decide_eq_true_eq, Option.some.injEq]
    constructor
    · rintro ⟨⟨hne, hnm⟩, hsub⟩
      exact ⟨code, rfl, hne, hnm, hsub⟩
    · rintro ⟨code', he, hne, hnm, hsub⟩
      cases he
      exact ⟨⟨hne, hnm⟩, hsub⟩

theorem mem_suggest_iff (onto : Ontology) (cs : List ConceptInst) (K : List String)
    (h : onto.geometricConcept = some cs) (r : Concept) :
    r ∈ suggest_next_concepts onto K ↔
      ∃ c, c ∈ cs ∧ emitted K c = true ∧ concept_to_model c = r := by
  simp only [suggest_next_concepts, h]
  rw [(List.perm_insertionSort conceptLE ((cs.filter (emitted K)).map concept_to_model)).mem_iff]
  simp only [List.mem_map, List.mem_filter]
  constructor
  · rintro ⟨c, ⟨hc, he⟩, hm⟩
    exact ⟨c, hc, he, hm⟩
  · rintro ⟨c, hc, he, hm⟩
    exact ⟨c, ⟨hc, he⟩, hm⟩

theorem image_key_eq_code (c : ConceptInst) :
    (concept_to_model c).image_key = (concept_to_model c).code :=
  rfl

theorem dedupFS_mem (x : String) : ∀ (l seen : List String),
    x ∈ dedupFS seen l ↔ x ∈ l ∧ x ∉ seen
  | [], seen => by simp [dedupFS]
  | c :: rest, seen => by
    by_cases h : c ∈ seen
    · rw [show dedupFS seen (c :: rest) = dedupFS seen rest from by
        simp [dedupFS, h]]
      rw [dedupFS_mem x rest seen]
      simp only [List.mem_cons]
      constructor
      · rintro ⟨hr, hs⟩
        exact ⟨Or.inr hr, hs⟩
      · rintro ⟨hc | hr, hs⟩
        · exact absurd (hc ▸ h) hs
        · exact ⟨hr, hs⟩
    · rw [show dedupFS seen (c :: rest) = c :: dedupFS (c :: seen) rest from by
        simp [dedupFS, h]]
      simp only [List.mem_cons]
      rw [dedupFS_mem x rest (c :: seen)]
      simp only [List.mem_cons]
      constructor
      · rintro (rfl | ⟨hr, hs⟩)
        · exact ⟨Or.inl rfl, h⟩
        · exact ⟨Or.inr hr, fun hx => hs (Or.inr hx)⟩
      · rintro ⟨hc | hr, hs⟩
        · exact Or.inl hc
        · by_cases hxc : x = c
          · exact Or.inl hxc
          · exact Or.inr ⟨hr, fun hx => hs (hx.resolve_left hxc)⟩

theorem dedupFS_nodup : ∀ (l seen : List String), (dedupFS seen l).Nodup
  | [], seen => by simp [dedupFS]
  | c :: rest, seen => by
    by_cases h : c ∈ seen
    · rw [show dedupFS seen (c :: rest) = dedupFS seen rest from by
        simp [dedupFS, h]]
      exact dedupFS_nodup rest seen
    · rw [show dedupFS seen (c :: rest) = c :: dedupFS (c :: seen) rest from by
        simp [dedupFS, h]]
      rw [List.nodup_cons]
      refine ⟨fun hc => ?_, dedupFS_nodup rest (c :: seen)⟩
      rw [dedupFS_mem] at hc
      exact hc.2 (List.mem_cons_self c seen)

theorem dedupFS_sublist : ∀ (l seen : List String), List.Sublist (dedupFS seen l) l
  | [], seen => by simp [dedupFS]
  | c :: rest, seen => by
    by_cases h : c ∈ seen
    · rw [show dedupFS seen (c :: rest) = dedupFS seen rest from by
        simp [dedupFS, h]]
      exact (dedupFS_sublist rest seen).cons c
    · rw [show dedupFS seen (c :: rest) = c :: dedupFS (c :: seen) rest from by
        simp [dedupFS, h]]
      exact (dedupFS_sublist rest (c :: seen)).cons₂ c

/-- C8: if the catalog lacks the `GeometricConcept` entity kind, listing concepts and
gap recommendation return the empty sequence, and if it lacks the `Problem` entity
kind, listing problems returns the empty sequence — no operation errors. -/
theorem claim_C8 (po : Option (List ProblemInst)) (go : Option (List ConceptInst))
    (K : List String) :
    list_concepts ⟨none, po⟩ = [] ∧ suggest_next_concepts ⟨none, po⟩ K = [] ∧
      list_problems ⟨go, none⟩ = [] :=
  ⟨rfl, rfl, rfl⟩

/-- C9: every `Concept` view produced by listing concepts, getting a concept by code,
or gap recommendation has its image key exactly equal to its code (hence absent
exactly when the code is absent). -/
theorem claim_C9 :
    (∀ (onto : Ontology) (r : Concept), r ∈ list_concepts onto →
      r.image_key = r.code) ∧
    (∀ (onto : Ontology) (code : String) (r : Concept), get_concept onto code = some r →
      r.image_key = r.code) ∧
    (∀ (onto : Ontology) (K : List String) (r : Concept),
      r ∈ suggest_next_concepts onto K → r.image_key = r.code) := by
  refine ⟨?_, ?_, ?_⟩
  · intro onto r hr
    unfold list_concepts at hr
    cases h : onto.geometricConcept with
    | none => rw [h] at hr; cases hr
    | some cs =>
      rw [h] at hr
      obtain ⟨c, _, rfl⟩ := List.mem_map.mp hr
      exact image_key_eq_code c
  · intro onto code r hr
    unfold get_concept at hr
    obtain ⟨c, _, rfl⟩ := Option.map_eq_some'.mp hr
    exact image_key_eq_code c
  · intro onto K r hr
    cases h : onto.geometricConcept with
    | none => simp only [suggest_next_concepts, h] at hr; cases hr
    | some cs =>
      obtain ⟨c, _, _, rfl⟩ := (mem_suggest_iff onto cs K h r).mp hr
      exact image_key_eq_code c

/-- C9 witness: the image key of a concretely produced concept view equals its code. -/
theorem claim_C9_witness :
    (concept_to_model conceptA).image_key = (concept_to_model conceptA).code :=
  claim_C9.1 abcOnto (concept_to_model conceptA) (by decide)

/-- C10 (the Knowledge Store is absent from src/, modelled from the spec):
`replace` returns the deduplicated, first-seen-ordered code list, installs it as the
student's stored set regardless of the previous contents, the stored set has no
duplicates and is a subsequence of the input containing exactly the input's codes,
and `replace(s, ["A","A","B"])` stores `["A","B"]`. -/
theorem claim_C10 (store : KnowledgeStore) (studentId : String) (codes : List String) :
    (replace store studentId codes).2 = dedupFirstSeen codes ∧
    storeGet (replace store studentId codes).1 studentId = some (dedupFirstSeen codes) ∧
    (dedupFirstSeen codes).Nodup ∧
    List.Sublist (dedupFirstSeen codes) codes ∧
    (∀ x, x ∈ dedupFirstSeen codes ↔ x ∈ codes) ∧
    dedupFirstSeen ["A", "A", "B"] = ["A", "B"] := by
  refine ⟨rfl, ?_, dedupFS_nodup codes [], dedupFS_sublist codes [], ?_, by decide⟩
  · simp [storeGet, replace, List.find?]
  · intro x
    rw [dedupFirstSeen, dedupFS_mem]
    simp

/-- C1: for a catalog with concept kind present, a mastered set `K` and a catalog
concept `c`, the gap recommendation emits `c`'s view exactly when `c`'s code is
present and non-empty, not in `K`, and every direct prerequisite code of `c` is in
`K`; and on the catalog `{A: prereq none, B: prereq [A], C: prereq [B]}` with
`K = {A}` the recommendations are exactly `{B}`. -/
theorem claim_C1 :
    (∀ (onto : Ontology) (cs : List ConceptInst) (K : List String) (c : ConceptInst),
      onto.geometricConcept = some cs → c ∈ cs →
      (concept_to_model c ∈ suggest_next_concepts onto K ↔
        ∃ code, get_concept_code c.toEntityData = some code ∧ code ≠ "" ∧ code ∉ K ∧
          ∀ p ∈ prereq_codes c, p ∈ K)) ∧
    suggest_next_concepts abcOnto ["A"] = [concept_to_model conceptB] := by
  constructor
  · intro onto cs K c h hc
    rw [mem_suggest_iff onto cs K h]
    constructor
    · rintro ⟨c', hc', he', hm⟩
      have hcode : get_concept_code c'.toEntityData = get_concept_code c.toEntityData := by
        have := congrArg Concept.code hm
        simpa [concept_to_model] using this
      have hpr : prereq_codes c' = prereq_codes c := by
        have := congrArg Concept.prerequisites hm
        simpa [concept_to_model] using this
      rw [emitted_eq_true_iff, hcode, hpr] at he'
      exact he'
    · intro hready
      exact ⟨c, hc, (emitted_eq_true_iff K c).mpr hready, rfl⟩
  · decide

/-- C1 witness: on the `A → B → C` example catalog with mastered set `{A}`, the
concept `B` satisfies the readiness conditions and its view is recommended. -/
theorem claim_C1_witness :
    concept_to_model conceptB ∈ suggest_next_concepts abcOnto ["A"] :=
  (claim_C1.1 abcOnto [conceptA, conceptB, conceptC] ["A"] conceptB rfl
    (by decide)).mpr (by decide)

/-- C2 counterexample: on a catalog holding a difficulty-0 concept labelled "a" and a
difficulty-1 concept labelled "b", the returned list is not sorted by difficulty
ascending with nil-difficulty last and label tie-break: the difficulty-0 concept is
keyed `999` by `x.difficulty or 999` and comes after the difficulty-1 concept. -/
theorem claim_C2_counterexample :
    ¬ (suggest_next_concepts zeroOnto []).Pairwise (fun a b => claimedLE a b = true) := by
  decide

/-- C2 amended: the returned list is sorted ascending by the key actually used by the
source, `(x.difficulty or 999, x.label.lower())`: difficulty with `None` AND `0`
both replaced by `999` (so a nil difficulty sorts after difficulties below 999 but
not after larger ones, and a zero difficulty sorts as 999), ties broken by the
lowercased label. -/
theorem claim_C2 (onto : Ontology) (K : List String) :
    (suggest_next_concepts onto K).Sorted conceptLE := by
  cases h : onto.geometricConcept with
  | none => simp [suggest_next_concepts, h]
  | some cs =>
    simp only [suggest_next_concepts, h]
    exact List.sorted_insertionSort conceptLE _

/-- C3 counterexample: an identifier that resolves in the world to a non-problem
entity (here a concept) does not resolve to a known problem — the world holds no
problem entities at all — yet check-answer returns a successful degraded result
instead of failing with a not-found error. -/
theorem claim_C3_counterexample :
    check_answer [WorldEntity.conceptEnt conceptA] "urn:A" "x" =
      some { correct := false, correct_answer := none,
             feedback := "This problem does not have a stored correct answer." } := by
  decide

/-- C3 amended: an identifier that resolves to no catalog concept makes the
get-concept operation fail with the not-found error, and an identifier that resolves
to no entity of the ontology's world at all makes the check-answer operation fail
with the not-found error; an identifier resolving to a non-problem world entity
instead yields the no-stored-answer degraded success (see the counterexample).
Neither operation crashes. -/
theorem claim_C3 :
    (∀ (onto : Ontology) (code : String),
      (∀ c ∈ onto.geometricConcept.getD [], get_concept_code c.toEntityData ≠ some code) →
      get_concept onto code = none) ∧
    (∀ (world : List WorldEntity) (iri ans : String),
      (∀ e ∈ world, WorldEntity.entIri e ≠ iri) →
      check_answer world iri ans = none) := by
  constructor
  · intro onto code h
    cases ho : onto.geometricConcept with
    | none => simp [get_concept, find_concept_by_code, ho]
    | some cs =>
      have hn : cs.find? (fun c => get_concept_code c.toEntityData == some code) = none := by
        rw [List.find?_eq_none]
        intro c hc
        simp only [beq_iff_eq]
        exact h c (by rw [ho]; simpa using hc)
      simp [get_concept, find_concept_by_code, ho, hn]
  · intro world iri ans h
    have hn : world.find? (fun e => WorldEntity.entIri e == iri) = none := by
      rw [List.find?_eq_none]
      intro e he
      simp only [beq_iff_eq]
      exact h e he
    simp [check_answer, hn]

/-- C3 witness: a code absent from the example catalog yields the 404 of get-concept,
and an IRI absent from the example world yields the 404 of check-answer. -/
theorem claim_C3_witness :
    get_concept abcOnto "ZZZ" = none ∧ check_answer answerWorld "urn:nope" "x" = none :=
  ⟨claim_C3.1 abcOnto "ZZZ" (by decide), claim_C3.2 answerWorld "urn:nope" "x" (by decide)⟩

/-- C4: when the submitted IRI resolves to an entity with a stored correct answer,
check-answer succeeds, reports correct exactly when the submitted and stored answers
agree after trimming surrounding whitespace and lowercasing, and always echoes the
stored answer back. -/
theorem claim_C4 (world : List WorldEntity) (iri ans ca : String) (e : WorldEntity)
    (hfind : world.find? (fun x => WorldEntity.entIri x == iri) = some e)
    (hca : WorldEntity.hasCorrectAnswerOf e = some ca) :
    ∃ r, check_answer world iri ans = some r ∧
      (r.correct = true ↔ pyNormalize ans = pyNormalize ca) ∧
      r.correct_answer = some ca := by
  simp only [check_answer, hfind, hca]
  by_cases h : pyNormalize ans = pyNormalize ca
  · rw [if_pos h]
    exact ⟨_, rfl, by simp [h], rfl⟩
  · rw [if_neg h]
    exact ⟨_, rfl, by simp [h], rfl⟩

/-- C4 witness: with stored answer "Right Angle", submitting " right angle " is
correct (the normalised strings agree) and submitting "obtuse" is not, with the
stored answer echoed back both times. -/
theorem claim_C4_witness :
    (∃ r, check_answer answerWorld "urn:prob1" " right angle " = some r ∧
      (r.correct = true ↔ pyNormalize " right angle " = pyNormalize "Right Angle") ∧
      r.correct_answer = some "Right Angle") ∧
    (∃ r, check_answer answerWorld "urn:prob1" "obtuse" = some r ∧
      (r.correct = true ↔ pyNormalize "obtuse" = pyNormalize "Right Angle") ∧
      r.correct_answer = some "Right Angle") ∧
    pyNormalize " right angle " = pyNormalize "Right Angle" ∧
    ¬ pyNormalize "obtuse" = pyNormalize "Right Angle" :=
  ⟨claim_C4 answerWorld "urn:prob1" " right angle " "Right Angle"
      (WorldEntity.problemEnt rightAngleProblem) (by decide) (by decide),
   claim_C4 answerWorld "urn:prob1" "obtuse" "Right Angle"
      (WorldEntity.problemEnt rightAngleProblem) (by decide) (by decide),
   by decide, by decide⟩

/-- C5: when the submitted IRI resolves to an entity with no stored correct answer,
check-answer returns a successful result with correct set to false, no correct
answer, and the explanatory feedback string — it does not error. -/
theorem claim_C5 (world : List WorldEntity) (iri ans : String) (e : WorldEntity)
    (hfind : world.find? (fun x => WorldEntity.entIri x == iri) = some e)
    (hca : WorldEntity.hasCorrectAnswerOf e = none) :
    check_answer world iri ans =
      some { correct := false, correct_answer := none,
             feedback := "This problem does not have a stored correct answer." } := by
  simp only [check_answer, hfind, hca]

/-- C5 witness: a concrete problem lacking a stored answer yields the degraded
success. -/
theorem claim_C5_witness :
    check_answer [WorldEntity.problemEnt noAnswerProblem] "urn:prob2" "zz" =
      some { correct := false, correct_answer := none,
             feedback := "This problem does not have a stored correct answer." } :=
  claim_C5 [WorldEntity.problemEnt noAnswerProblem] "urn:prob2" "zz"
    (WorldEntity.problemEnt noAnswerProblem) (by decide) (by decide)

/-- C6: if a set `S` of codes is disjoint from the mastered set `K` and every catalog
concept whose code lies in `S` has some direct prerequisite code in `S` (as every
member of a prerequisite cycle does), then no recommended concept carries a code in
`S`; the operation is a total function, so it terminates on every input. -/
theorem claim_C6 (onto : Ontology) (cs : List ConceptInst) (K S : List String)
    (h : onto.geometricConcept = some cs)
    (hdisj : ∀ s ∈ S, s ∉ K)
    (hcyc : ∀ c ∈ cs, ∀ code, get_concept_code c.toEntityData = some code → code ∈ S →
      ∃ p ∈ prereq_codes c, p ∈ S) :
    ∀ r ∈ suggest_next_concepts onto K, ∀ code, r.code = some code → code ∉ S := by
  intro r hr code hcode hS
  rw [mem_suggest_iff onto cs K h] at hr
  obtain ⟨c, hc, he, hm⟩ := hr
  rw [emitted_eq_true_iff] at he
  obtain ⟨code', hc', _, _, hsub⟩ := he
  have hcc : code' = code := by
    have h2 := congrArg Concept.code hm
    simp only [concept_to_model] at h2
    rw [hc', hcode] at h2
    exact Option.some.injEq _ _ ▸ h2
  obtain ⟨p, hp, hpS⟩ := hcyc c hc code (hcc ▸ hc') hS
  exact hdisj p hpS (hsub p hp)

/-- C6 witness: in the two-cycle catalog `P ↔ Q` with nothing mastered, the cycle
member `P` is not recommended. -/
theorem claim_C6_witness :
    concept_to_model ⟨entP, [entQ]⟩ ∉ suggest_next_concepts cycleOnto [] :=
  fun hmem =>
    claim_C6 cycleOnto [⟨entP, [entQ]⟩, ⟨entQ, [entP]⟩] [] ["P", "Q"] rfl (by decide)
      (by
        intro c hc code hcode hS
        simp only [List.mem_cons, List.not_mem_nil, or_false] at hc
        rcases hc with rfl | rfl <;> exact (by decide))
      (concept_to_model ⟨entP, [entQ]⟩) hmem "P" rfl (by decide)

/-- C7: codes matching no catalog concept code and no prerequisite code can be added
to the mastered set without changing the gap-recommendation output. -/
theorem claim_C7 (onto : Ontology) (K U : List String)
    (h : ∀ u ∈ U, ∀ c ∈ onto.geometricConcept.getD [],
      get_concept_code c.toEntityData ≠ some u ∧ u ∉ prereq_codes c) :
    suggest_next_concepts onto (K ++ U) = suggest_next_concepts onto K := by
  cases ho : onto.geometricConcept with
  | none => simp [suggest_next_concepts, ho]
  | some cs =>
    simp only [suggest_next_concepts, ho]
    have hf : cs.filter (emitted (K ++ U)) = cs.filter (emitted K) := by
      apply List.filter_congr
      intro c hc
      have hm : ∀ x, (get_concept_code c.toEntityData = some x ∨ x ∈ prereq_codes c) →
          (x ∈ K ++ U ↔ x ∈ K) := by
        intro x hx
        rw [List.mem_append]
        constructor
        · rintro (hK | hU)
          · exact hK
          · exfalso
            have h2 := h x hU c (by rw [ho]; simpa using hc)
            rcases hx with hcode2 | hpre
            · exact h2.1 hcode2
            · exact h2.2 hpre
        · exact Or.inl
      rw [Bool.eq_iff_iff, emitted_eq_true_iff, emitted_eq_true_iff]
      constructor
      · rintro ⟨code, hcode, hne, hnm, hsub⟩
        exact ⟨code, hcode, hne, fun hK => hnm (List.mem_append.mpr (Or.inl hK)),
          fun p hp => (hm p (Or.inr hp)).mp (hsub p hp)⟩
      · rintro ⟨code, hcode, hne, hnm, hsub⟩
        exact ⟨code, hcode, hne, fun hKU => hnm ((hm code (Or.inl hcode)).mp hKU),
          fun p hp => (hm p (Or.inr hp)).mpr (hsub p hp)⟩
    rw [hf]

/-- C7 witness: adding the unknown code "ZZZ" to the mastered set `{A}` leaves the
recommendations on the example catalog unchanged. -/
theorem claim_C7_witness :
    suggest_next_concepts abcOnto (["A"] ++ ["ZZZ"]) =
      suggest_next_concepts abcOnto ["A"] :=
  claim_C7 abcOnto ["A"] ["ZZZ"] (by decide)

end ITS
